import Mathlib

/-!
Verification of the cpp-hash-tables build tooling: the Conan recipe
(`conanfile.py`), the dependency-installation script
(`scripts/install_conan_dependencies.py`) and the golden-ratio integer
generator (`scripts/generate_golden_ratio_integer.py`), shallowly embedded
in Lean 4.
-/

namespace CppHashTables

/-! ## Embedding of `conanfile.py` (class `CppHashTablesConan`) -/

/-- Settings dimensions declared by the recipe: `settings = "os", "compiler",
"build_type", "arch"`. -/
structure Settings where
  os : String
  compiler : String
  build_type : String
  arch : String
deriving DecidableEq, Repr

/-- Option set of the recipe: the single boolean option
`requirements_for_tests` (default `False`). -/
structure OptionSet where
  requirements_for_tests : Bool
deriving DecidableEq, Repr

/-- Immutable package metadata fields of `CppHashTablesConan`. -/
structure PackageMetadata where
  name : String
  version : String
  description : String
  homepage : String
  url : String
  license : String
  author : String
deriving DecidableEq, Repr

/-- The metadata constants of the recipe. -/
def metadata : PackageMetadata :=
  { name := "cpp_hash_tables"
    version := "0.1.0"
    description := "Hash tables in C++."
    homepage := "https://gitlab.com/MusicScience37/cpp-hash-tables"
    url := "https://gitlab.com/MusicScience37/cpp-hash-tables.git"
    license := "Apache-2.0"
    author := "Kenta Kabashima (kenta_program37@hotmail.co.jp)" }

/-- Method `requirements(self)`: its body is `pass`, so no mandatory
requirement reference is ever declared, for any option set. -/
def requirements (_options : OptionSet) : List String := []

/-- Method `build_requirements(self)`: declares the three pinned test-time
references exactly when `self.options.requirements_for_tests` is true. -/
def build_requirements (options : OptionSet) : List String :=
  if options.requirements_for_tests then
    [ "catch2/3.0.0pre4@MusicScience37+conan-extra-packages/stable"
    , "trompeloeil/42"
    , "cpp_stat_bench/0.5.0@MusicScience37+cpp-stat-bench/stable" ]
  else []

/-- Name part of a Conan reference string `name/version[@user/channel]`. -/
def refName (r : String) : String := ⟨r.data.takeWhile (· ≠ '/')⟩

/-- Version part of a Conan reference string `name/version[@user/channel]`. -/
def refVersion (r : String) : String :=
  ⟨((r.data.dropWhile (· ≠ '/')).drop 1).takeWhile (· ≠ '@')⟩

/-- A version string is an exact pin when it is nonempty and uses no Conan
version-range syntax (brackets). -/
def isExactPin (v : String) : Bool :=
  !v.data.isEmpty && !(v.data.any (fun c => c = '[' || c = ']'))

/-- Conan package identity information: the metadata together with the
settings and options taken into account for the binary package id.
`self.info` starts out holding the full settings and options. -/
structure PackageInfo where
  meta : PackageMetadata
  settings : Option Settings
  options : Option OptionSet
deriving DecidableEq, Repr

/-- Conan method `ConanInfo.header_only()`: discards the settings and options
from the identity computation. -/
def headerOnly (info : PackageInfo) : PackageInfo :=
  { info with settings := none, options := none }

/-- Method `package_id(self)`: starts from the full identity information and
applies `self.info.header_only()`. -/
def package_id (m : PackageMetadata) (s : Settings) (o : OptionSet) : PackageInfo :=
  headerOnly { meta := m, settings := some s, options := some o }

/-- Try the continuation pattern after a star against every suffix of the
string. -/
def starLoop (f : List Char → Bool) : List Char → Bool
  | [] => f []
  | c :: s => f (c :: s) || starLoop f s

/-- Glob matching as used by Conan `self.copy(pattern)` (fnmatch): a literal
character matches itself and a star matches any, possibly empty, sequence of
characters. -/
def globMatch : List Char → List Char → Bool
  | [], s => s.isEmpty
  | '*' :: ps, s => starLoop (globMatch ps) s
  | p :: ps, s =>
      match s with
      | [] => false
      | c :: s' => p = c && globMatch ps s'

/-- Method `package(self)`: its body is the single call `self.copy("*.h")`,
which copies into the package exactly those staged source files whose path
matches the pattern `*.h`. -/
def package (sources : List String) : List String :=
  sources.filter (fun f => globMatch "*.h".data f.data)

end CppHashTables

namespace InstallScript

/-! ## Embedding of `scripts/install_conan_dependencies.py`

Filesystem paths are modelled as lists of path components; the project root
is the parent of the `scripts` directory holding the script. -/

/-- The `click.Choice` list of the `build_type` argument. -/
def buildTypeChoices : List String :=
  ["Debug", "Release", "RelWithDebInfo", "MinSizeRel"]

/-- Constant `THIS_DIR = Path(__file__).absolute().parent`: the `scripts` directory
under the project root. -/
def thisDir (projectRoot : List String) : List String :=
  projectRoot ++ ["scripts"]

/-- Python `Path.parent`: drop the last path component. -/
def parentDir (p : List String) : List String := p.dropLast

/-- Function `make_build_path(build_type)`: `THIS_DIR.parent / "build" / build_type`. -/
def make_build_path (projectRoot : List String) (build_type : String) : List String :=
  parentDir (thisDir projectRoot) ++ ["build", build_type]

/-- The `command` list built in `install_conan_dependencies`. -/
def makeCommand (build_type : String) (additional_args : List String) : List String :=
  [ "conan", "install", "--build", "missing"
  , "-s", "build_type=" ++ build_type
  , "-o", "requirements_for_tests=True" ]
  ++ additional_args
  ++ ["../.."]

/-- Observable side effects of one script invocation, in order. -/
inductive Effect where
  | makedirs (path : List String)
  | printCommand (command : List String)
  | runProcess (command : List String) (cwd : List String)
deriving DecidableEq, Repr

/-- Result of one script invocation: either `click` rejects the
`build_type` argument before the callback runs (usage error, no side
effect), or the callback runs to completion with a trace of effects and the
process exit code. -/
inductive ScriptResult where
  | usageError
  | completed (effects : List Effect) (exitCode : Int)
deriving DecidableEq, Repr

/-- Effects performed by an invocation; a usage error performs none. -/
def effectsOf : ScriptResult → List Effect
  | .usageError => []
  | .completed effects _ => effects

/-- Exit code of a completed invocation. -/
def exitCodeOf : ScriptResult → Option Int
  | .usageError => none
  | .completed _ code => some code

/-- Whether `click` rejected the arguments before any side effect. -/
def isUsageError : ScriptResult → Bool
  | .usageError => true
  | .completed _ _ => false

/-- One invocation of `install_conan_dependencies`. `click` validates the
positional `build_type` against `click.Choice` before invoking the callback;
on success the callback creates the build directory, prints the command and
runs it synchronously (`subprocess.run` with `cwd=build_path`), then exits
with the return code of the child. `childExit` models the return code of the
delegated `conan` process. -/
def runInstallScript (projectRoot : List String) (build_type : String)
    (additional_args : List String) (childExit : Int) : ScriptResult :=
  if build_type ∈ buildTypeChoices then
    let build_path := make_build_path projectRoot build_type
    let command := makeCommand build_type additional_args
    .completed
      [ .makedirs build_path
      , .printCommand command
      , .runProcess command build_path ]
      childExit
  else
    .usageError

/-- Commands of the child processes spawned by a trace. -/
def spawnedCommands (effects : List Effect) : List (List String) :=
  effects.filterMap fun e =>
    match e with
    | .runProcess command _ => some command
    | _ => none

/-- Working directories of the child processes spawned by a trace. -/
def spawnedCwds (effects : List Effect) : List (List String) :=
  effects.filterMap fun e =>
    match e with
    | .runProcess _ cwd => some cwd
    | _ => none

/-- Directories passed to `os.makedirs` by a trace. -/
def madeDirs (effects : List Effect) : List (List String) :=
  effects.filterMap fun e =>
    match e with
    | .makedirs path => some path
    | _ => none

/-- Insert a directory into the set of existing directories, a no-op when it
already exists. -/
def insertDir (fs : List (List String)) (d : List String) : List (List String) :=
  if d ∈ fs then fs else fs ++ [d]

/-- Python `os.makedirs(path, exist_ok=True)`: recursively create the directory and
every missing ancestor; an already-existing directory is left alone, never
an error. -/
def mkdirs (fs : List (List String)) : List String → List (List String)
  | [] => fs
  | c :: rest => insertDir (mkdirs fs (c :: rest).dropLast) (c :: rest)
termination_by p => p.length
decreasing_by simp [List.dropLast]

/-- Resolve one relative path component against a working directory:
`".."` goes to the parent, anything else descends. -/
def resolveComponent (p : List String) (c : String) : List String :=
  if c = ".." then p.dropLast else p ++ [c]

/-- Resolve a relative path against a working directory. -/
def resolvePath (cwd : List String) (rel : List String) : List String :=
  rel.foldl resolveComponent cwd

end InstallScript

namespace GoldenRatio

/-! ## Embedding of `scripts/generate_golden_ratio_integer.py`

The script computes with `mpmath` at `mpmath.mp.prec = 100`, i.e. binary
floating point with a 100-bit significand, every operation correctly
rounded to nearest.  Each intermediate value `x` of the script lies in a
binade `[2^(e-1), 2^e)` known in advance, where a 100-bit significand means
rounding at `k = 100 - e` fractional bits, so each step is modelled as
exact rational arithmetic followed by rounding at the appropriate fixed
number of fractional bits.  The Mathlib function `round` breaks ties upward while
mpmath breaks ties to even; no tie occurs anywhere in this computation, so
the two agree on every rounding performed here. -/

/-- Round a rational to `k` fractional bits, to nearest. -/
def fpRound (k : ℕ) (q : ℚ) : ℚ := (round (q * 2 ^ k) : ℤ) / 2 ^ k

/-- Nearest integer to `√n · 2^k`: the correctly rounded scaled significand
of `mpmath.sqrt(n)` (ties upward; for the use below `√5 · 2^98` is
irrational, so no tie occurs). -/
def sqrtRound (k n : ℕ) : ℕ :=
  let s := Nat.sqrt (n * 4 ^ k)
  if (2 * s + 1) ^ 2 ≤ 4 * (n * 4 ^ k) then s + 1 else s

/-- Value `mpmath.sqrt(mpmath.mpf(5))` at `prec = 100`: `√5 ∈ [2, 4)`, so the
result carries 98 fractional bits. -/
def sqrt5_fp : ℚ := (sqrtRound 98 5 : ℚ) / 2 ^ 98

/-- Value `mpmath.mpf(1) + sqrt5_fp` at `prec = 100`: the sum lies in `[2, 4)`. -/
def one_plus_sqrt5_fp : ℚ := fpRound 98 (1 + sqrt5_fp)

/-- Value `golden_ratio = (mpf(1) + sqrt(mpf(5))) / mpf(2)` at `prec = 100`: the
quotient lies in `[1, 2)`. -/
def golden_ratio_fp : ℚ := fpRound 99 (one_plus_sqrt5_fp / 2)

/-- Python `int()` on a float: truncation toward zero. -/
def pyInt (q : ℚ) : ℤ := if 0 ≤ q then ⌊q⌋ else ⌈q⌉

/-- Value `integer32 = int(mpmath.power(mpf(2), 32) / golden_ratio)`: the
quotient lies in `[2^31, 2^32)`, so the division is rounded at 68
fractional bits before truncation.  (`mpmath.power(mpf(2), 32) = 2^32`
exactly.) -/
def integer32 : ℤ := pyInt (fpRound 68 (2 ^ 32 / golden_ratio_fp))

/-- Value `integer64 = int(mpmath.power(mpf(2), 64) / golden_ratio)`: the
quotient lies in `[2^63, 2^64)`, so the division is rounded at 36
fractional bits before truncation. -/
def integer64 : ℤ := pyInt (fpRound 36 (2 ^ 64 / golden_ratio_fp))

/-- The exact golden ratio `φ = (1 + √5) / 2`, the mathematical value the
claim compares the output of the script against. -/
noncomputable def goldenRatio : ℝ := (1 + Real.sqrt 5) / 2

end GoldenRatio

/-! ## Helper lemmas -/

namespace CppHashTables

lemma globMatch_dot_h (t : List Char) :
    globMatch ['.', 'h'] t = true ↔ t = ['.', 'h'] := by
  match t with
  | [] =>
      rw [show globMatch ['.', 'h'] [] = false from rfl]
      simp
  | [c] =>
      rw [show globMatch ['.', 'h'] [c] = (('.' = c) && false) from rfl]
      simp only [Bool.and_false]
      simp
  | c :: d :: t' =>
      rw [show globMatch ['.', 'h'] (c :: d :: t')
            = (('.' = c) && (('h' = d) && t'.isEmpty)) from rfl]
      simp only [Bool.and_eq_true, decide_eq_true_eq, List.isEmpty_iff]
      constructor
      · rintro ⟨h1, h2, h3⟩
        simp [← h1, ← h2, h3]
      · rintro h
        injection h with h1 h2
        injection h2 with h2 h3
        exact ⟨h1.symm, h2.symm, h3⟩

lemma starLoop_iff (f : List Char → Bool) (s : List Char) :
    starLoop f s = true ↔ ∃ t, t <:+ s ∧ f t = true := by
  induction s with
  | nil =>
      simp [starLoop]
  | cons c s ih =>
      rw [starLoop]
      simp only [Bool.or_eq_true, ih]
      constructor
      · rintro (h | ⟨t, ht, hf⟩)
        · exact ⟨c :: s, List.suffix_refl _, h⟩
        · exact ⟨t, ht.trans (List.suffix_cons c s), hf⟩
      · rintro ⟨t, ht, hf⟩
        rcases List.suffix_cons_iff.mp ht with h | h
        · exact Or.inl (h ▸ hf)
        · exact Or.inr ⟨t, h, hf⟩

lemma globMatch_star_dot_h (s : List Char) :
    globMatch "*.h".data s = true ↔ ['.', 'h'] <:+ s := by
  rw [show globMatch "*.h".data s = starLoop (globMatch ['.', 'h']) s from rfl]
  rw [starLoop_iff]
  constructor
  · rintro ⟨t, ht, hf⟩
    exact (globMatch_dot_h t).mp hf ▸ ht
  · intro h
    exact ⟨['.', 'h'], h, (globMatch_dot_h _).mpr rfl⟩

end CppHashTables

namespace InstallScript

lemma mem_insertDir_self (fs : List (List String)) (d : List String) :
    d ∈ insertDir fs d := by
  unfold insertDir
  split
  · assumption
  · simp

lemma mem_insertDir_of_mem (fs : List (List String)) (d e : List String)
    (h : d ∈ fs) : d ∈ insertDir fs e := by
  unfold insertDir
  split
  · exact h
  · simp [h]

lemma insertDir_eq_of_mem (fs : List (List String)) (d : List String)
    (h : d ∈ fs) : insertDir fs d = fs := by
  simp [insertDir, h]

lemma mem_mkdirs_self (fs : List (List String)) (p : List String) (hp : p ≠ []) :
    p ∈ mkdirs fs p := by
  cases p with
  | nil => exact absurd rfl hp
  | cons c rest =>
      rw [mkdirs]
      exact mem_insertDir_self _ _

lemma mem_mkdirs_of_mem (fs : List (List String)) (d : List String) :
    ∀ p : List String, d ∈ fs → d ∈ mkdirs fs p
  | [] => fun h => by rw [mkdirs]; exact h
  | c :: rest => fun h => by
      rw [mkdirs]
      exact mem_insertDir_of_mem _ _ _ (mem_mkdirs_of_mem fs d (c :: rest).dropLast h)
termination_by p => p.length
decreasing_by simp [List.dropLast]

lemma mkdirs_eq_of_sub (fs fs' : List (List String)) :
    ∀ p : List String, (∀ d, d ∈ mkdirs fs' p → d ∈ fs) → mkdirs fs p = fs
  | [] => fun _ => by rw [mkdirs]
  | c :: rest => fun h => by
      rw [mkdirs]
      have hrest : mkdirs fs (c :: rest).dropLast = fs := by
        apply mkdirs_eq_of_sub fs fs' (c :: rest).dropLast
        intro d hd
        apply h
        rw [mkdirs]
        exact mem_insertDir_of_mem _ _ _ hd
      rw [hrest]
      apply insertDir_eq_of_mem
      apply h
      rw [mkdirs]
      exact mem_insertDir_self _ _
termination_by p => p.length
decreasing_by all_goals simp [List.dropLast]

lemma mkdirs_idem (fs : List (List String)) (p : List String) :
    mkdirs (mkdirs fs p) p = mkdirs fs p :=
  mkdirs_eq_of_sub (mkdirs fs p) fs p (fun _ hd => hd)

lemma runInstallScript_valid (root : List String) (build_type : String)
    (args : List String) (code : Int) (h : build_type ∈ buildTypeChoices) :
    runInstallScript root build_type args code
      = .completed
          [ .makedirs (make_build_path root build_type)
          , .printCommand (makeCommand build_type args)
          , .runProcess (makeCommand build_type args)
              (make_build_path root build_type) ]
          code := by
  simp [runInstallScript, h]

lemma make_build_path_eq (root : List String) (build_type : String) :
    make_build_path root build_type = root ++ ["build", build_type] := by
  simp [make_build_path, parentDir, thisDir]

end InstallScript

namespace GoldenRatio

lemma sqrt5_fp_val : sqrt5_fp = (708638228457182841184406864643 : ℚ) / 2 ^ 98 := by
  have hs : Nat.sqrt (5 * 4 ^ 98) = 708638228457182841184406864642 :=
    (Nat.eq_sqrt'.mpr ⟨by norm_num, by norm_num⟩).symm
  unfold sqrt5_fp sqrtRound
  rw [hs]
  norm_num

lemma golden_ratio_fp_val :
    golden_ratio_fp = (1025550878514240191558582665987 : ℚ) / 2 ^ 99 := by
  unfold golden_ratio_fp one_plus_sqrt5_fp fpRound
  rw [sqrt5_fp_val]
  norm_num [round_eq]

lemma sqrt5_lb : (2703240312412959446656825 : ℝ) / 2 ^ 80 < Real.sqrt 5 := by
  rw [Real.lt_sqrt (by positivity)]
  norm_num

lemma sqrt5_ub : Real.sqrt 5 < (2703240312412959446656826 : ℝ) / 2 ^ 80 := by
  rw [Real.sqrt_lt' (by positivity)]
  norm_num

end GoldenRatio

namespace GoldenRatio

lemma integer32_val : integer32 = 0x9E3779B9 := by
  unfold integer32 pyInt fpRound
  rw [golden_ratio_fp_val]
  norm_num [round_eq]

lemma integer64_val : integer64 = 0x9E3779B97F4A7C15 := by
  unfold integer64 pyInt fpRound
  rw [golden_ratio_fp_val]
  norm_num [round_eq]

lemma floor32_val : ⌊(2 : ℝ) ^ 32 / goldenRatio⌋ = 0x9E3779B9 := by
  have h5l := sqrt5_lb
  have h5u := sqrt5_ub
  have hpos : (0 : ℝ) < (1 + Real.sqrt 5) / 2 := by positivity
  rw [Int.floor_eq_iff]
  unfold goldenRatio
  constructor
  · rw [le_div_iff₀ hpos]
    push_cast
    nlinarith [h5u]
  · rw [div_lt_iff₀ hpos]
    push_cast
    nlinarith [h5l]

lemma floor64_val : ⌊(2 : ℝ) ^ 64 / goldenRatio⌋ = 0x9E3779B97F4A7C15 := by
  have h5l := sqrt5_lb
  have h5u := sqrt5_ub
  have hpos : (0 : ℝ) < (1 + Real.sqrt 5) / 2 := by positivity
  rw [Int.floor_eq_iff]
  unfold goldenRatio
  constructor
  · rw [le_div_iff₀ hpos]
    push_cast
    nlinarith [h5u]
  · rw [div_lt_iff₀ hpos]
    push_cast
    nlinarith [h5l]

end GoldenRatio

/-! ## Claims -/

open CppHashTables InstallScript GoldenRatio

/-- Claim C1: for every valid build type and every (possibly empty) sequence
of passthrough arguments, the single command the script spawns is exactly
the fixed head `conan install --build missing -s build_type=<build_type> -o
requirements_for_tests=True`, followed by the passthrough arguments
verbatim and in order, followed by the single final recipe-path argument
`../..`. -/
theorem claim_C1 (root : List String) (build_type : String)
    (args : List String) (code : Int) (h : build_type ∈ buildTypeChoices) :
    spawnedCommands (effectsOf (runInstallScript root build_type args code))
      = [ [ "conan", "install", "--build", "missing"
          , "-s", "build_type=" ++ build_type
          , "-o", "requirements_for_tests=True" ]
          ++ args ++ ["../.."] ] := by
  rw [runInstallScript_valid root build_type args code h]
  simp [effectsOf, spawnedCommands, makeCommand]

/-- Witness for claim C1 at `build_type = "Debug"` and passthrough arguments
`["-pr", "myprofile"]`. -/
theorem claim_C1_witness :
    "Debug" ∈ buildTypeChoices ∧
    spawnedCommands (effectsOf (runInstallScript ["repo"] "Debug" ["-pr", "myprofile"] 0))
      = [ [ "conan", "install", "--build", "missing"
          , "-s", "build_type=" ++ "Debug"
          , "-o", "requirements_for_tests=True" ]
          ++ ["-pr", "myprofile"] ++ ["../.."] ] :=
  ⟨by decide, claim_C1 ["repo"] "Debug" ["-pr", "myprofile"] 0 (by decide)⟩

/-- Claim C2: for every `build_type` outside the closed choice set, the
invocation fails with the click argument-validation (usage) error before any
side effect: no directory is created and no child process is spawned. -/
theorem claim_C2 (root : List String) (build_type : String)
    (args : List String) (code : Int) (h : build_type ∉ buildTypeChoices) :
    isUsageError (runInstallScript root build_type args code) = true ∧
    effectsOf (runInstallScript root build_type args code) = [] := by
  have hrun : runInstallScript root build_type args code = .usageError := by
    simp [runInstallScript, h]
  rw [hrun]
  exact ⟨rfl, rfl⟩

/-- Witness for claim C2 at `build_type = "Foo"`. -/
theorem claim_C2_witness :
    "Foo" ∉ buildTypeChoices ∧
    (isUsageError (runInstallScript ["repo"] "Foo" [] 0) = true ∧
     effectsOf (runInstallScript ["repo"] "Foo" [] 0) = []) :=
  ⟨by decide, claim_C2 ["repo"] "Foo" [] 0 (by decide)⟩

/-- Claim C3: for every exit code of the delegated child process, the
exit code of the script itself equals exactly that child exit code; it is never
intercepted or translated. -/
theorem claim_C3 (root : List String) (build_type : String)
    (args : List String) (code : Int) (h : build_type ∈ buildTypeChoices) :
    exitCodeOf (runInstallScript root build_type args code) = some code := by
  rw [runInstallScript_valid root build_type args code h]
  rfl

/-- Witness for claim C3 at `build_type = "Release"` and child exit code 2. -/
theorem claim_C3_witness :
    "Release" ∈ buildTypeChoices ∧
    exitCodeOf (runInstallScript ["repo"] "Release" [] 2) = some 2 :=
  ⟨by decide, claim_C3 ["repo"] "Release" [] 2 (by decide)⟩

/-- Claim C4: `build_requirements` yields the empty set when
`requirements_for_tests` is false, and when it is true yields exactly the
three entries catch2/3.0.0pre4, trompeloeil/42 and cpp_stat_bench/0.5.0 —
no more and no fewer, each with an exact version pin. -/
theorem claim_C4 :
    build_requirements ⟨false⟩ = [] ∧
    (build_requirements ⟨true⟩).map (fun r => (refName r, refVersion r))
      = [ ("catch2", "3.0.0pre4"), ("trompeloeil", "42")
        , ("cpp_stat_bench", "0.5.0") ] ∧
    (build_requirements ⟨true⟩).all (fun r => isExactPin (refVersion r)) = true :=
  ⟨rfl, by decide, by decide⟩

/-- Claim C5: `package_id` computes the identical package identity for any
two settings tuples and option sets, given the same package metadata: the
header-only collapse reads neither settings nor options. -/
theorem claim_C5 (m : PackageMetadata) (s₁ s₂ : Settings) (o₁ o₂ : OptionSet) :
    package_id m s₁ o₁ = package_id m s₂ o₂ := rfl

/-- Claim C6: for every valid build type, the invocation creates the build
directory (recursively) before the install command executes; the creation
is idempotent — creating an already-existing directory is a no-op, not an
error — and the same build type always maps to the same single build
directory `make_build_path root build_type`. -/
theorem claim_C6 (root : List String) (build_type : String)
    (args : List String) (code : Int) (fs : List (List String))
    (h : build_type ∈ buildTypeChoices) :
    effectsOf (runInstallScript root build_type args code)
      = [ .makedirs (make_build_path root build_type)
        , .printCommand (makeCommand build_type args)
        , .runProcess (makeCommand build_type args)
            (make_build_path root build_type) ] ∧
    make_build_path root build_type ∈ mkdirs fs (make_build_path root build_type) ∧
    mkdirs (mkdirs fs (make_build_path root build_type))
        (make_build_path root build_type)
      = mkdirs fs (make_build_path root build_type) := by
  refine ⟨?_, ?_, mkdirs_idem _ _⟩
  · rw [runInstallScript_valid root build_type args code h]
    rfl
  · apply mem_mkdirs_self
    rw [make_build_path_eq]
    simp

/-- Witness for claim C6 at `build_type = "RelWithDebInfo"` on an empty
filesystem. -/
theorem claim_C6_witness :
    "RelWithDebInfo" ∈ buildTypeChoices ∧
    (effectsOf (runInstallScript ["repo"] "RelWithDebInfo" [] 0)
      = [ .makedirs (make_build_path ["repo"] "RelWithDebInfo")
        , .printCommand (makeCommand "RelWithDebInfo" [])
        , .runProcess (makeCommand "RelWithDebInfo" [])
            (make_build_path ["repo"] "RelWithDebInfo") ] ∧
    make_build_path ["repo"] "RelWithDebInfo"
      ∈ mkdirs [] (make_build_path ["repo"] "RelWithDebInfo") ∧
    mkdirs (mkdirs [] (make_build_path ["repo"] "RelWithDebInfo"))
        (make_build_path ["repo"] "RelWithDebInfo")
      = mkdirs [] (make_build_path ["repo"] "RelWithDebInfo")) :=
  ⟨by decide, claim_C6 ["repo"] "RelWithDebInfo" [] 0 [] (by decide)⟩

/-- Claim C7: the packaging rule copies into the artifact exactly those
staged source files whose path matches the header pattern `*.h` (i.e. ends
in `.h`), and nothing else: every file in the packaged artifact comes from
the sources and ends in `.h`, and every source file ending in `.h` is
copied. -/
theorem claim_C7 (sources : List String) (f : String) :
    f ∈ package sources ↔ f ∈ sources ∧ ['.', 'h'] <:+ f.data := by
  unfold package
  rw [List.mem_filter]
  exact and_congr Iff.rfl (globMatch_star_dot_h f.data)

/-- Claim C8: `requirements` returns the mandatory requirement set, which in
this revision is empty, and its result does not vary with the option set. -/
theorem claim_C8 (o o' : OptionSet) :
    requirements o = [] ∧ requirements o = requirements o' := ⟨rfl, rfl⟩

/-- Claim C9: for every valid build type the install command runs with
working directory equal to the build directory `build/<build_type>` under
the project root (the parent of the scripts directory), and the final
recipe-path argument `../..` resolves from that working directory back to
the project root containing the recipe. -/
theorem claim_C9 (root : List String) (build_type : String)
    (args : List String) (code : Int) (h : build_type ∈ buildTypeChoices) :
    spawnedCwds (effectsOf (runInstallScript root build_type args code))
      = [make_build_path root build_type] ∧
    make_build_path root build_type = root ++ ["build", build_type] ∧
    resolvePath (make_build_path root build_type) ["..", ".."] = root := by
  refine ⟨?_, make_build_path_eq root build_type, ?_⟩
  · rw [runInstallScript_valid root build_type args code h]
    simp [effectsOf, spawnedCwds]
  · rw [make_build_path_eq]
    show ((root ++ ["build", build_type]).dropLast).dropLast = root
    have hsplit : root ++ ["build", build_type]
        = (root ++ ["build"]) ++ [build_type] := by simp
    rw [hsplit, List.dropLast_concat, List.dropLast_concat]

/-- Witness for claim C9 at `build_type = "MinSizeRel"`. -/
theorem claim_C9_witness :
    "MinSizeRel" ∈ buildTypeChoices ∧
    (spawnedCwds (effectsOf (runInstallScript ["repo"] "MinSizeRel" [] 0))
      = [make_build_path ["repo"] "MinSizeRel"] ∧
    make_build_path ["repo"] "MinSizeRel" = ["repo"] ++ ["build", "MinSizeRel"] ∧
    resolvePath (make_build_path ["repo"] "MinSizeRel") ["..", ".."] = ["repo"]) :=
  ⟨by decide, claim_C9 ["repo"] "MinSizeRel" [] 0 (by decide)⟩

/-- Claim C10: the golden-ratio utility computes, at 100 bits of precision,
as its 32-bit integer exactly `0x9E3779B9` and as its 64-bit integer exactly
`0x9E3779B97F4A7C15`, and these are exactly `⌊2^32 / φ⌋` and `⌊2^64 / φ⌋`
for the true golden ratio `φ = (1 + √5)/2` — 100 bits of working precision
are enough for both results to be exact. -/
theorem claim_C10 :
    integer32 = 0x9E3779B9 ∧
    integer64 = 0x9E3779B97F4A7C15 ∧
    ⌊(2 : ℝ) ^ 32 / GoldenRatio.goldenRatio⌋ = 0x9E3779B9 ∧
    ⌊(2 : ℝ) ^ 64 / GoldenRatio.goldenRatio⌋ = 0x9E3779B97F4A7C15 :=
  ⟨integer32_val, integer64_val, floor32_val, floor64_val⟩
